import Mathlib

/-!
Verification of the neospend-api core against its natural-language spec.

The development shallowly embeds two parts of the code base:

* the balance-ledger maintenance performed by the transaction routes
  (`src/api/routes/transactions.py`), and
* the JWT token lifecycle (`src/api/core/tokens.py` together with the
  `/refresh` route of `src/api/routes/auth.py`).

Databases are modelled as lists of rows; `session.exec(...).first()`
becomes `List.find?`, `session.get(Model, pk)` becomes a `find?` on the
primary-key column, and a committed row update maps the row list.
`Decimal` amounts and balances are modelled as `Int` (the balance algebra
only uses `+`/`-`, which is identical in any ordered additive group), and
`datetime` values as integer epoch seconds, matching `datetime_to_epoch`.
-/

namespace Neospend

/-- `TransactionKind` from `src/api/database/schemas.py`. -/
inductive TransactionKind where
  | income
  | expense
deriving DecidableEq, Repr

/-- `Account` row (`src/api/database/models.py`); presentation-only columns
(`created_at`) that no route reads are omitted. -/
structure Account where
  id : Nat
  user_id : Nat
  name : String
  initial_balance : Int
  balance : Int
  updated_at : Int
deriving DecidableEq, Repr

/-- `Category` row (`src/api/database/models.py`). -/
structure Category where
  id : Nat
  user_id : Nat
  name : String
  kind : TransactionKind
deriving DecidableEq, Repr

/-- `Transaction` row (`src/api/database/models.py`). -/
structure Transaction where
  id : Nat
  user_id : Nat
  account_id : Nat
  category_id : Nat
  name : String
  date : Int
  amount : Int
  notes : String
  kind : TransactionKind
  updated_at : Int
deriving DecidableEq, Repr

/-- The relational state the transaction routes read and write. -/
structure FinDB where
  accounts : List Account
  categories : List Category
  transactions : List Transaction
deriving DecidableEq, Repr

/-- An `HTTPException`: status code plus detail string. -/
structure HttpError where
  status : Nat
  detail : String
deriving DecidableEq, Repr

/-- `session.get(Account, id)`: primary-key lookup. -/
def getAccount (db : FinDB) (i : Nat) : Option Account :=
  db.accounts.find? (fun a => a.id == i)

/-- `session.get(Category, id)`: primary-key lookup. -/
def getCategory (db : FinDB) (i : Nat) : Option Category :=
  db.categories.find? (fun c => c.id == i)

/-- `select(Transaction).where(user_id == u, id == i)` followed by `.first()`. -/
def findTransaction (db : FinDB) (u i : Nat) : Option Transaction :=
  db.transactions.find? (fun t => t.user_id == u && t.id == i)

/-- Committing a mutated account object: the row with its id is replaced. -/
def setAccount (db : FinDB) (a : Account) : FinDB :=
  { db with accounts := db.accounts.map (fun b => if b.id = a.id then a else b) }

/-- Python's `str.title()` restricted to the ASCII casing the routes use:
each maximal alphabetic run starts uppercase and continues lowercase. -/
def pyTitle (s : String) : String :=
  String.mk (s.data.foldl
    (fun (acc : List Char × Bool) c =>
      if c.isAlpha then
        (acc.1 ++ [if acc.2 then c.toLower else c.toUpper], true)
      else
        (acc.1 ++ [c], false))
    (([] : List Char), false)).1

/-- Python's `str.strip()`: drop leading and trailing whitespace. -/
def pyStrip (s : String) : String :=
  String.mk (((s.data.dropWhile Char.isWhitespace).reverse.dropWhile
    Char.isWhitespace).reverse)

/-- `payload.name.strip().title()` as used by the transaction routes. -/
def stripTitle (s : String) : String := pyTitle (pyStrip s)

/-- The signed effect of a transaction on its account's balance:
`+amount` for income, `-amount` for expense. -/
def txEffect (k : TransactionKind) (amount : Int) : Int :=
  if k = TransactionKind.income then amount else -amount

/-- `TransactionCreate` payload (`src/api/database/schemas.py`), with the
validated `date` carried as an opaque integer. -/
structure TransactionCreate where
  name : String
  date : Int
  amount : Int
  notes : String
  account_id : Nat
  category_id : Nat
  kind : TransactionKind
deriving DecidableEq, Repr

/-- `create_transaction` (`src/api/routes/transactions.py`, POST handler):
fetches account and category by primary key (no ownership filter), 404s when
either is absent, otherwise adjusts the account balance by the signed amount
and inserts the new row.  `newId` stands for the autoincremented primary key
and `now` for the row timestamp defaults. -/
def create_transaction (db : FinDB) (user_id : Nat) (p : TransactionCreate)
    (newId : Nat) (now : Int) : FinDB × Except HttpError Transaction :=
  match getAccount db p.account_id, getCategory db p.category_id with
  | none, _ => (db, .error ⟨404, "Account not found."⟩)
  | some _, none => (db, .error ⟨404, "Category not found."⟩)
  | some account, some _cat =>
      let nm := stripTitle p.name
      let new_balance :=
        if p.kind = TransactionKind.income then account.balance + p.amount
        else account.balance - p.amount
      let account' := { account with balance := new_balance }
      let tx : Transaction :=
        { id := newId, user_id := user_id, account_id := p.account_id,
          category_id := p.category_id, name := nm, date := p.date,
          amount := p.amount, notes := p.notes, kind := p.kind,
          updated_at := now }
      let db' := setAccount db account'
      ({ db' with transactions := db'.transactions ++ [tx] }, .ok tx)

/-! ### List lemmas for row updates -/

theorem find?_map_update_same {l : List Account} {i : Nat} {a a' : Account}
    (h : l.find? (fun b => b.id == i) = some a) (hid : a'.id = a.id) :
    (l.map (fun b => if b.id = a'.id then a' else b)).find? (fun b => b.id == i)
      = some a' := by
  induction l with
  | nil => simp [List.find?] at h
  | cons hd tl ih =>
      by_cases hp : hd.id = i
      · rw [List.find?_cons_of_pos _ (by simpa using hp)] at h
        have hhd : hd = a := by injection h
        subst hhd
        simp only [List.map_cons]
        rw [if_pos (by rw [hid])]
        exact List.find?_cons_of_pos _ (by simpa using hid.trans hp)
      · rw [List.find?_cons_of_neg _ (by simpa using hp)] at h
        have haid : a.id = i := by
          have := List.find?_some h
          simpa using this
        have hne : hd.id ≠ a'.id := by
          rw [hid, haid]; exact hp
        simp only [List.map_cons]
        rw [if_neg hne]
        rw [List.find?_cons_of_neg _ (by simpa using hp)]
        exact ih h

theorem find?_map_update_other {l : List Account} {i : Nat} {a' : Account}
    (h : a'.id ≠ i) :
    (l.map (fun b => if b.id = a'.id then a' else b)).find? (fun b => b.id == i)
      = l.find? (fun b => b.id == i) := by
  induction l with
  | nil => simp
  | cons hd tl ih =>
      by_cases hp : hd.id = a'.id
      · have hhd : (hd.id == i) = false := by
          simp only [beq_eq_false_iff_ne, ne_eq]
          rw [hp]; exact h
        simp only [List.map_cons]
        rw [if_pos hp]
        rw [List.find?_cons_of_neg _ (by simpa using h),
            List.find?_cons_of_neg _ (by simp only [beq_iff_eq, hp]; exact h)]
        exact ih
      · simp only [List.map_cons]
        rw [if_neg hp]
        by_cases hq : hd.id = i
        · rw [List.find?_cons_of_pos _ (by simpa using hq),
              List.find?_cons_of_pos _ (by simpa using hq)]
        · rw [List.find?_cons_of_neg _ (by simpa using hq),
              List.find?_cons_of_neg _ (by simpa using hq)]
          exact ih

/-! ### C2: balance after create -/

/-- **C2.** Creating a transaction on an existing account and category
succeeds, and the account's stored balance afterwards equals its balance
before plus the signed effect of the new transaction
(`+amount` for income, `-amount` for expense). -/
theorem create_balance_invariant (db : FinDB) (u : Nat) (p : TransactionCreate)
    (newId : Nat) (now : Int) (acc : Account) (cat : Category)
    (ha : getAccount db p.account_id = some acc)
    (hc : getCategory db p.category_id = some cat) :
    getAccount (create_transaction db u p newId now).1 p.account_id
        = some { acc with balance := acc.balance + txEffect p.kind p.amount }
      ∧ ∃ tx, (create_transaction db u p newId now).2 = Except.ok tx := by
  have hbal :
      (if p.kind = TransactionKind.income then acc.balance + p.amount
        else acc.balance - p.amount) = acc.balance + txEffect p.kind p.amount := by
    cases p.kind <;> simp [txEffect, sub_eq_add_neg]
  constructor
  · show getAccount (create_transaction db u p newId now).1 p.account_id = _
    unfold create_transaction
    rw [ha, hc]
    simp only [getAccount, setAccount]
    rw [hbal]
    exact @find?_map_update_same db.accounts p.account_id acc
      { acc with balance := acc.balance + txEffect p.kind p.amount } ha rfl
  · unfold create_transaction
    rw [ha, hc]
    exact ⟨_, rfl⟩

/-- Witness for C2 at the spec's concrete example: starting balance 100,
income of 50 brings the stored balance to 150. -/
theorem create_balance_invariant_witness :
    getAccount (create_transaction
        ⟨[⟨1, 1, "Checking", 100, 100, 0⟩], [⟨1, 1, "Salary", .income⟩], []⟩
        1 ⟨"Paycheck", 0, 50, "", 1, 1, .income⟩ 1 0).1 1
      = some ⟨1, 1, "Checking", 100, 150, 0⟩ := by
  have h := create_balance_invariant
    ⟨[⟨1, 1, "Checking", 100, 100, 0⟩], [⟨1, 1, "Salary", .income⟩], []⟩
    1 ⟨"Paycheck", 0, 50, "", 1, 1, .income⟩ 1 0
    ⟨1, 1, "Checking", 100, 100, 0⟩ ⟨1, 1, "Salary", .income⟩ (by decide) (by decide)
  exact h.1

/-! ### C3: create failure cases -/

/-- **C3 (amended).** Transaction create fails with a not-found error exactly
when the referenced account or the referenced category does not exist; in
those failure cases the database — transaction rows and account balances —
is unchanged.  (No ownership check is performed on create: the route fetches
both rows by bare primary key.) -/
theorem create_notfound_cases (db : FinDB) (u : Nat) (p : TransactionCreate)
    (newId : Nat) (now : Int) :
    ((∃ e, (create_transaction db u p newId now).2 = Except.error e)
        ↔ (getAccount db p.account_id = none ∨ getCategory db p.category_id = none))
    ∧ ((getAccount db p.account_id = none ∨ getCategory db p.category_id = none)
        → (create_transaction db u p newId now).1 = db) := by
  rcases hA : getAccount db p.account_id with _ | acc
  · constructor
    · constructor
      · intro _; exact Or.inl rfl
      · intro _
        refine ⟨⟨404, "Account not found."⟩, ?_⟩
        unfold create_transaction; rw [hA]
    · intro _; unfold create_transaction; rw [hA]
  · rcases hC : getCategory db p.category_id with _ | cat
    · constructor
      · constructor
        · intro _; exact Or.inr rfl
        · intro _
          refine ⟨⟨404, "Category not found."⟩, ?_⟩
          unfold create_transaction; rw [hA, hC]
      · intro _; unfold create_transaction; rw [hA, hC]
    · constructor
      · constructor
        · intro he
          obtain ⟨e, he⟩ := he
          unfold create_transaction at he
          rw [hA, hC] at he
          exact absurd he (by simp)
        · intro h
          rcases h with h | h
          · exact Option.noConfusion h
          · exact Option.noConfusion h
      · intro h
        rcases h with h | h
        · exact Option.noConfusion h
        · exact Option.noConfusion h

/-- Witness for C3's amended statement: with an empty database every create
fails and leaves the state unchanged. -/
theorem create_notfound_cases_witness :
    (create_transaction ⟨[], [], []⟩ 1 ⟨"Lunch", 0, 50, "", 1, 1, .income⟩ 1 0).1
      = ⟨[], [], []⟩ :=
  (create_notfound_cases ⟨[], [], []⟩ 1 ⟨"Lunch", 0, 50, "", 1, 1, .income⟩ 1 0).2
    (Or.inl rfl)

/-- Counterexample to C3 as stated: the account and category belong to user 2,
yet user 1's create succeeds (no not-found error) and user 2's account balance
is changed.  The route performs no ownership check on create. -/
theorem create_ownership_not_checked :
    (create_transaction ⟨[⟨1, 2, "Other", 0, 0, 0⟩], [⟨1, 2, "Salary", .income⟩], []⟩
        1 ⟨"Lunch", 0, 50, "", 1, 1, .income⟩ 1 0).2
      = Except.ok ⟨1, 1, 1, 1, "Lunch", 0, 50, "", .income, 0⟩
    ∧ (create_transaction ⟨[⟨1, 2, "Other", 0, 0, 0⟩], [⟨1, 2, "Salary", .income⟩], []⟩
        1 ⟨"Lunch", 0, 50, "", 1, 1, .income⟩ 1 0).1.accounts
      = [⟨1, 2, "Other", 0, 50, 0⟩] := by
  constructor <;> rfl

/-! ### Transaction update and delete -/

/-- Modelled from the spec: the `TransactionUpdate` schema class is imported
by `src/api/routes/transactions.py` but its definition is not among the
sources.  Following the spec ("using new kind/amount if supplied, else
unchanged values") and the route's `model_dump(exclude_unset=True)` it is the
all-optional variant of `TransactionBase`. -/
structure TransactionUpdate where
  name : Option String := none
  date : Option Int := none
  amount : Option Int := none
  notes : Option String := none
  account_id : Option Nat := none
  category_id : Option Nat := none
  kind : Option TransactionKind := none
deriving DecidableEq, Repr

/-- `transaction.sqlmodel_update(update_data)` with the name title-casing and
the `updated_at` stamp appended to `update_data`. -/
def applyUpdate (t : Transaction) (p : TransactionUpdate) (now : Int) :
    Transaction :=
  { t with
    name := match p.name with | some n => stripTitle n | none => t.name
    date := p.date.getD t.date
    amount := p.amount.getD t.amount
    notes := p.notes.getD t.notes
    account_id := p.account_id.getD t.account_id
    category_id := p.category_id.getD t.category_id
    kind := p.kind.getD t.kind
    updated_at := now }

/-- The category validation of the PUT handler: when a `category_id` is
supplied, a category with that id, the effective kind and the requesting
user must exist. -/
def categoryOk (db : FinDB) (user_id : Nat) (cid? : Option Nat)
    (update_kind : TransactionKind) : Bool :=
  match cid? with
  | none => true
  | some cid =>
      (db.categories.find? (fun c =>
        c.id == cid && c.kind == update_kind && c.user_id == user_id)).isSome

/-- `update_transaction` (`src/api/routes/transactions.py`, PUT handler).
The same-account branch reads `transaction.account` through the relationship;
a dangling `account_id` would raise an `AttributeError` in Python, modelled
as a 500 response. -/
def update_transaction (db : FinDB) (user_id : Nat) (id : Nat)
    (p : TransactionUpdate) (now : Int) : FinDB × Except HttpError Transaction :=
  match findTransaction db user_id id with
  | none => (db, .error ⟨404, "Transaction not found."⟩)
  | some transaction =>
      let update_kind := p.kind.getD transaction.kind
      let update_amount := p.amount.getD transaction.amount
      if categoryOk db user_id p.category_id update_kind then
        let finish : FinDB → FinDB × Except HttpError Transaction := fun db1 =>
          let transaction' := applyUpdate transaction p now
          let txs := db1.transactions.map
            (fun t => if t.id = transaction.id then transaction' else t)
          ({ db1 with transactions := txs }, .ok transaction')
        let sameAccount : Unit → FinDB × Except HttpError Transaction := fun _ =>
          match getAccount db transaction.account_id with
          | none => (db, .error ⟨500, "Internal Server Error"⟩)
          | some acct =>
              let prev_effect :=
                if transaction.kind = TransactionKind.income then
                  transaction.amount else -transaction.amount
              let new_effect :=
                if update_kind = TransactionKind.income then
                  update_amount else -update_amount
              let delta := new_effect - prev_effect
              let db1 :=
                if delta ≠ 0 then
                  setAccount db { acct with balance := acct.balance + delta, updated_at := now }
                else db
              finish db1
        match p.account_id with
        | none => sameAccount ()
        | some aid =>
            if aid = transaction.account_id then sameAccount ()
            else
              match getAccount db aid with
              | none => (db, .error ⟨404, "Account you are updating to, can not found."⟩)
              | some update_account =>
                  if update_account.user_id ≠ user_id then
                    (db, .error ⟨404, "Account you are updating to, can not found."⟩)
                  else
                    match getAccount db transaction.account_id with
                    | none => (db, .error ⟨404, "Account you are updating from, can not found."⟩)
                    | some prev_account =>
                        if prev_account.user_id ≠ user_id then
                          (db, .error ⟨404, "Account you are updating from, can not found."⟩)
                        else
                          let prev_account_balance :=
                            if transaction.kind = TransactionKind.income then
                              prev_account.balance - transaction.amount
                            else prev_account.balance + transaction.amount
                          let db1 := setAccount db { prev_account with balance := prev_account_balance, updated_at := now }
                          let update_account_balance :=
                            if update_kind = TransactionKind.income then
                              update_account.balance + update_amount
                            else update_account.balance - update_amount
                          let db2 := setAccount db1 { update_account with balance := update_account_balance, updated_at := now }
                          finish db2
      else (db, .error ⟨404, "Category not found."⟩)

/-- The FastAPI response model of the DELETE handler. -/
structure DeleteResponse where
  ok : Bool
deriving DecidableEq, Repr

/-- The body of the `try` block of `delete_transaction`: look up the row
restricted to the requesting user, raise 404 when absent, otherwise delete
the row and answer `{"ok": true}`. -/
def delete_transaction_inner (db : FinDB) (user_id : Nat) (id : Nat) :
    Except HttpError (FinDB × DeleteResponse) :=
  match db.transactions.find? (fun t => t.id == id && t.user_id == user_id) with
  | none => .error ⟨404, "Transaction not found."⟩
  | some _ =>
      .ok ({ db with transactions :=
              db.transactions.eraseP (fun t => t.id == id && t.user_id == user_id) },
            ⟨true⟩)

/-- `delete_transaction` (`src/api/routes/transactions.py`, DELETE handler):
the whole body sits in a `try` whose `except Exception` returns
`{"ok": false}`, so every raised error — including the 404 — is swallowed. -/
def delete_transaction (db : FinDB) (user_id : Nat) (id : Nat) :
    FinDB × DeleteResponse :=
  match delete_transaction_inner db user_id id with
  | .ok r => r
  | .error _ => (db, ⟨false⟩)


/-! ### C4: update with unchanged account reference -/

/-- **C4.** An update that leaves the account reference unchanged (absent, or
equal to the stored one) succeeds and moves the account's balance by exactly
`new_effect - old_effect`, where each effect is the signed-by-kind amount and
the effective kind/amount are the supplied values when present, else the
stored ones. -/
theorem update_same_account_delta (db : FinDB) (u i : Nat) (p : TransactionUpdate)
    (now : Int) (tx : Transaction) (acc : Account)
    (htx : findTransaction db u i = some tx)
    (hsame : p.account_id = none ∨ p.account_id = some tx.account_id)
    (hcat : categoryOk db u p.category_id (p.kind.getD tx.kind) = true)
    (hacc : getAccount db tx.account_id = some acc) :
    (update_transaction db u i p now).2 = Except.ok (applyUpdate tx p now)
    ∧ ∃ acc', getAccount (update_transaction db u i p now).1 tx.account_id = some acc'
        ∧ acc'.balance = acc.balance
            + (txEffect (p.kind.getD tx.kind) (p.amount.getD tx.amount)
                - txEffect tx.kind tx.amount) := by
  have hred :
      update_transaction db u i p now =
        (let update_kind := p.kind.getD tx.kind
         let update_amount := p.amount.getD tx.amount
         let prev_effect :=
           if tx.kind = TransactionKind.income then tx.amount else -tx.amount
         let new_effect :=
           if update_kind = TransactionKind.income then update_amount
           else -update_amount
         let delta := new_effect - prev_effect
         let db1 :=
           if delta ≠ 0 then
             setAccount db { acc with balance := acc.balance + delta, updated_at := now }
           else db
         let transaction' := applyUpdate tx p now
         let txs := db1.transactions.map
           (fun t => if t.id = tx.id then transaction' else t)
         ({ db1 with transactions := txs }, Except.ok transaction')) := by
    unfold update_transaction
    rw [htx]
    simp only [hcat, if_true]
    rcases hsame with h | h
    · rw [h]
      rw [hacc]
    · simp only [h, eq_self_iff_true, if_true, hacc]
  rw [hred]
  simp only [txEffect]
  by_cases hδ :
      ((if (p.kind.getD tx.kind) = TransactionKind.income then (p.amount.getD tx.amount)
          else -(p.amount.getD tx.amount))
        - (if tx.kind = TransactionKind.income then tx.amount else -tx.amount)) = 0
  · simp only [hδ, ne_eq, not_true_eq_false, if_false, not_false_eq_true]
    refine ⟨trivial, acc, ?_, by omega⟩
    simpa [getAccount] using hacc
  · simp only [ne_eq, hδ, not_false_eq_true, if_true]
    refine ⟨trivial, { acc with
        balance := acc.balance +
          ((if (p.kind.getD tx.kind) = TransactionKind.income then (p.amount.getD tx.amount)
              else -(p.amount.getD tx.amount))
            - (if tx.kind = TransactionKind.income then tx.amount else -tx.amount)),
        updated_at := now }, ?_, rfl⟩
    show (db.accounts.map _).find? _ = _
    exact find?_map_update_same hacc rfl

/-- Witness for C4 at the spec's two examples: income 50 updated to amount
100 moves the balance from 150 to 200, and switching income 50 to expense 30
applies delta −80, moving 150 to 70. -/
theorem update_same_account_delta_witness :
    (∃ acc', getAccount (update_transaction
        ⟨[⟨1, 1, "Checking", 100, 150, 0⟩], [⟨1, 1, "Salary", .income⟩],
          [⟨1, 1, 1, 1, "Paycheck", 0, 50, "", .income, 0⟩]⟩
        1 1 ⟨none, none, some 100, none, none, none, none⟩ 9).1 1
      = some acc' ∧ acc'.balance = 200)
    ∧ (∃ acc', getAccount (update_transaction
        ⟨[⟨1, 1, "Checking", 100, 150, 0⟩], [⟨1, 1, "Salary", .income⟩],
          [⟨1, 1, 1, 1, "Paycheck", 0, 50, "", .income, 0⟩]⟩
        1 1 ⟨none, none, some 30, none, none, none, some .expense⟩ 9).1 1
      = some acc' ∧ acc'.balance = 70) := by
  constructor
  · obtain ⟨-, acc', hfind, hbal⟩ := update_same_account_delta
      ⟨[⟨1, 1, "Checking", 100, 150, 0⟩], [⟨1, 1, "Salary", .income⟩],
        [⟨1, 1, 1, 1, "Paycheck", 0, 50, "", .income, 0⟩]⟩
      1 1 ⟨none, none, some 100, none, none, none, none⟩ 9
      ⟨1, 1, 1, 1, "Paycheck", 0, 50, "", .income, 0⟩
      ⟨1, 1, "Checking", 100, 150, 0⟩ (by rfl) (Or.inl rfl) (by rfl) (by rfl)
    exact ⟨acc', hfind, by rw [hbal]; decide⟩
  · obtain ⟨-, acc', hfind, hbal⟩ := update_same_account_delta
      ⟨[⟨1, 1, "Checking", 100, 150, 0⟩], [⟨1, 1, "Salary", .income⟩],
        [⟨1, 1, 1, 1, "Paycheck", 0, 50, "", .income, 0⟩]⟩
      1 1 ⟨none, none, some 30, none, none, none, some .expense⟩ 9
      ⟨1, 1, 1, 1, "Paycheck", 0, 50, "", .income, 0⟩
      ⟨1, 1, "Checking", 100, 150, 0⟩ (by rfl) (Or.inl rfl) (by rfl) (by rfl)
    exact ⟨acc', hfind, by rw [hbal]; decide⟩

/-! ### C5: update that moves the transaction to another account -/

/-- **C5.** An update that changes the account reference to another existing
account of the same user reverses the original signed effect on the old
account and applies the new signed effect (supplied kind/amount when present,
else the stored ones) to the new account; both rows are persisted with the
new balances and fresh `updated_at` stamps. -/
theorem update_changed_account (db : FinDB) (u i : Nat) (p : TransactionUpdate)
    (now : Int) (tx : Transaction) (aid : Nat) (updAcc prevAcc : Account)
    (htx : findTransaction db u i = some tx)
    (haid : p.account_id = some aid)
    (hne : aid ≠ tx.account_id)
    (hcat : categoryOk db u p.category_id (p.kind.getD tx.kind) = true)
    (hupd : getAccount db aid = some updAcc)
    (hownU : updAcc.user_id = u)
    (hprev : getAccount db tx.account_id = some prevAcc)
    (hownP : prevAcc.user_id = u) :
    (update_transaction db u i p now).2 = Except.ok (applyUpdate tx p now)
    ∧ getAccount (update_transaction db u i p now).1 tx.account_id
        = some { prevAcc with
            balance := prevAcc.balance - txEffect tx.kind tx.amount,
            updated_at := now }
    ∧ getAccount (update_transaction db u i p now).1 aid
        = some { updAcc with
            balance := updAcc.balance
              + txEffect (p.kind.getD tx.kind) (p.amount.getD tx.amount),
            updated_at := now } := by
  have hidU : updAcc.id = aid := by simpa using List.find?_some hupd
  have hidP : prevAcc.id = tx.account_id := by simpa using List.find?_some hprev
  have hprevBal :
      (if tx.kind = TransactionKind.income then prevAcc.balance - tx.amount
        else prevAcc.balance + tx.amount)
        = prevAcc.balance - txEffect tx.kind tx.amount := by
    cases tx.kind <;> simp [txEffect, sub_eq_add_neg]
  have hupdBal :
      (if (p.kind.getD tx.kind) = TransactionKind.income then
          updAcc.balance + (p.amount.getD tx.amount)
        else updAcc.balance - (p.amount.getD tx.amount))
        = updAcc.balance + txEffect (p.kind.getD tx.kind) (p.amount.getD tx.amount) := by
    rcases hk : p.kind.getD tx.kind with _ | _ <;> simp [txEffect, sub_eq_add_neg]
  have hred :
      update_transaction db u i p now =
        (let db1 := setAccount db { prevAcc with
            balance := prevAcc.balance - txEffect tx.kind tx.amount,
            updated_at := now }
         let db2 := setAccount db1 { updAcc with
            balance := updAcc.balance
              + txEffect (p.kind.getD tx.kind) (p.amount.getD tx.amount),
            updated_at := now }
         let transaction' := applyUpdate tx p now
         let txs := db2.transactions.map
           (fun t => if t.id = tx.id then transaction' else t)
         ({ db2 with transactions := txs }, Except.ok transaction')) := by
    unfold update_transaction
    rw [htx]
    simp only [hcat, if_true, haid, if_neg hne, hupd, hprev, hownU, hownP,
      ne_eq, not_true_eq_false, if_false, hprevBal, hupdBal]
  rw [hred]
  have hne' : tx.account_id ≠ aid := fun hx => hne hx.symm
  refine ⟨rfl, ?_, ?_⟩
  · show (List.map _ (List.map _ db.accounts)).find? _ = _
    rw [find?_map_update_other (by rw [hidU]; exact hne)]
    exact find?_map_update_same hprev rfl
  · show (List.map _ (List.map _ db.accounts)).find? _ = _
    have h1 : (db.accounts.map (fun b =>
        if b.id = ({ prevAcc with
            balance := prevAcc.balance - txEffect tx.kind tx.amount,
            updated_at := now } : Account).id then
          { prevAcc with
            balance := prevAcc.balance - txEffect tx.kind tx.amount,
            updated_at := now }
        else b)).find? (fun b => b.id == aid)
        = some updAcc := by
      rw [find?_map_update_other (by rw [hidP]; exact hne')]
      exact hupd
    exact find?_map_update_same h1 rfl

/-- Witness for C5: moving an income-50 transaction from account 1
(balance 150) to account 2 (balance 20) leaves account 1 at 100 and account 2
at 70, both stamped with the update time. -/
theorem update_changed_account_witness :
    getAccount (update_transaction
        ⟨[⟨1, 1, "A", 0, 150, 0⟩, ⟨2, 1, "B", 0, 20, 0⟩],
          [⟨1, 1, "Salary", .income⟩],
          [⟨1, 1, 1, 1, "Paycheck", 0, 50, "", .income, 0⟩]⟩
        1 1 ⟨none, none, none, none, some 2, none, none⟩ 9).1 1
      = some ⟨1, 1, "A", 0, 100, 9⟩
    ∧ getAccount (update_transaction
        ⟨[⟨1, 1, "A", 0, 150, 0⟩, ⟨2, 1, "B", 0, 20, 0⟩],
          [⟨1, 1, "Salary", .income⟩],
          [⟨1, 1, 1, 1, "Paycheck", 0, 50, "", .income, 0⟩]⟩
        1 1 ⟨none, none, none, none, some 2, none, none⟩ 9).1 2
      = some ⟨2, 1, "B", 0, 70, 9⟩ := by
  obtain ⟨-, h1, h2⟩ := update_changed_account
    ⟨[⟨1, 1, "A", 0, 150, 0⟩, ⟨2, 1, "B", 0, 20, 0⟩],
      [⟨1, 1, "Salary", .income⟩],
      [⟨1, 1, 1, 1, "Paycheck", 0, 50, "", .income, 0⟩]⟩
    1 1 ⟨none, none, none, none, some 2, none, none⟩ 9
    ⟨1, 1, 1, 1, "Paycheck", 0, 50, "", .income, 0⟩ 2
    ⟨2, 1, "B", 0, 20, 0⟩ ⟨1, 1, "A", 0, 150, 0⟩
    (by rfl) rfl (by decide) (by rfl) (by rfl) rfl (by rfl) rfl
  exact ⟨h1.trans (by decide), h2.trans (by decide)⟩

/-! ### C6: delete removes the row but leaves balances alone -/

/-- **C6.** Deleting an existing transaction of the requesting user answers
`{"ok": true}`, removes exactly one transaction row (the remaining rows all
come from the old table), and leaves the accounts table — in particular the
owning account's stored balance — completely unchanged: the transaction's
signed effect is not reversed. -/
theorem delete_preserves_balances (db : FinDB) (u i : Nat) (tx : Transaction)
    (h : db.transactions.find? (fun t => t.id == i && t.user_id == u) = some tx) :
    (delete_transaction db u i).2 = ⟨true⟩
    ∧ (delete_transaction db u i).1.accounts = db.accounts
    ∧ (delete_transaction db u i).1.transactions.length + 1
        = db.transactions.length
    ∧ ∀ t ∈ (delete_transaction db u i).1.transactions, t ∈ db.transactions := by
  have hm : tx ∈ db.transactions := List.mem_of_find?_eq_some h
  have hp := List.find?_some h
  unfold delete_transaction delete_transaction_inner
  rw [h]
  refine ⟨rfl, rfl, ?_, ?_⟩
  · exact List.length_eraseP_add_one hm hp
  · intro t ht
    exact (List.eraseP_sublist _).subset ht

/-- Witness for C6: deleting the only transaction leaves the account row,
balance included, untouched. -/
theorem delete_preserves_balances_witness :
    (delete_transaction
        ⟨[⟨1, 1, "Checking", 100, 150, 0⟩], [⟨1, 1, "Salary", .income⟩],
          [⟨1, 1, 1, 1, "Paycheck", 0, 50, "", .income, 0⟩]⟩ 1 1).2 = ⟨true⟩
    ∧ (delete_transaction
        ⟨[⟨1, 1, "Checking", 100, 150, 0⟩], [⟨1, 1, "Salary", .income⟩],
          [⟨1, 1, 1, 1, "Paycheck", 0, 50, "", .income, 0⟩]⟩ 1 1).1.accounts
      = [⟨1, 1, "Checking", 100, 150, 0⟩] := by
  have h := delete_preserves_balances
    ⟨[⟨1, 1, "Checking", 100, 150, 0⟩], [⟨1, 1, "Salary", .income⟩],
      [⟨1, 1, 1, 1, "Paycheck", 0, 50, "", .income, 0⟩]⟩ 1 1
    ⟨1, 1, 1, 1, "Paycheck", 0, 50, "", .income, 0⟩ (by rfl)
  exact ⟨h.1, h.2.1⟩

/-! ### C10: the delete endpoint swallows every error -/

/-- **C10.** The DELETE handler always returns a result object: `ok` is true
exactly when a transaction with the requested id belongs to the requesting
user, and in the not-found case the 404 raised inside the `try` block is
caught by the surrounding `except Exception`, producing `{"ok": false}` with
the database unchanged instead of a surfaced not-found failure. -/
theorem delete_never_propagates (db : FinDB) (u i : Nat) :
    ((delete_transaction db u i).2.ok = true
        ↔ (db.transactions.find? (fun t => t.id == i && t.user_id == u)).isSome
            = true)
    ∧ (db.transactions.find? (fun t => t.id == i && t.user_id == u) = none
        → delete_transaction_inner db u i
              = Except.error ⟨404, "Transaction not found."⟩
          ∧ delete_transaction db u i = (db, ⟨false⟩)) := by
  rcases h : db.transactions.find? (fun t => t.id == i && t.user_id == u)
    with _ | tx
  · refine ⟨?_, fun _ => ⟨?_, ?_⟩⟩
    · simp [delete_transaction, delete_transaction_inner, h]
    · simp [delete_transaction_inner, h]
    · simp [delete_transaction, delete_transaction_inner, h]
  · refine ⟨?_, fun hc => ?_⟩
    · simp [delete_transaction, delete_transaction_inner, h]
    · exact absurd hc (by simp [h])

/-- Witness for C10's conditional part: on an empty database the inner body
raises the 404 and the endpoint answers `{"ok": false}`. -/
theorem delete_never_propagates_witness :
    delete_transaction_inner ⟨[], [], []⟩ 1 1
        = Except.error ⟨404, "Transaction not found."⟩
    ∧ delete_transaction ⟨[], [], []⟩ 1 1 = (⟨[], [], []⟩, ⟨false⟩) :=
  (delete_never_propagates ⟨[], [], []⟩ 1 1).2 rfl

/-! ### Token lifecycle model (`src/api/core/tokens.py`)

JWT payloads are claim dictionaries; values are strings or integers.
`datetime` values appear only through `datetime_to_epoch`, so times are
integer epoch seconds.  `str(user.id)` followed by `int(...)` round-trips,
so the user-id claim carries the numeric id directly. -/

/-- A JWT claim value: the payloads built by this code hold strings
(token type, jti, user id) and epoch integers (exp, iat). -/
inductive ClaimVal where
  | str (s : String)
  | num (n : Nat)
deriving DecidableEq, Repr

/-- A claims dictionary in insertion order (Python `dict`). -/
structure Claims where
  kvs : List (String × ClaimVal)
deriving DecidableEq, Repr

/-- Python dict assignment `payload[k] = v`: replace in place, else append. -/
def Claims.set (c : Claims) (k : String) (v : ClaimVal) : Claims :=
  if c.kvs.any (fun kv => kv.1 == k) then
    ⟨c.kvs.map (fun kv => if kv.1 = k then (k, v) else kv)⟩
  else ⟨c.kvs ++ [(k, v)]⟩

/-- Python `payload.get(k)`. -/
def Claims.get (c : Claims) (k : String) : Option ClaimVal :=
  (c.kvs.find? (fun kv => kv.1 == k)).map (fun kv => kv.2)

/-- The `EXP_CLAIM` constant of `tokens.py`. -/
def EXP_CLAIM : String := "exp"

/-- The `IAT_CLAIM` constant of `tokens.py`. -/
def IAT_CLAIM : String := "iat"

/-- The claim-name and lifetime configuration consumed by `tokens.py`
(`settings.TOKEN_TYPE_CLAIM`, `settings.JTI_CLAIM`, `settings.USER_ID_CLAIM`,
and the two lifetimes reduced to seconds). -/
structure Settings where
  TOKEN_TYPE_CLAIM : String
  JTI_CLAIM : String
  USER_ID_CLAIM : String
  ACCESS_TOKEN_LIFETIME : Nat
  REFRESH_TOKEN_LIFETIME : Nat
deriving DecidableEq, Repr

/-- `Token.__init__` with `token=None`: start from the type claim, then
`set_iat(now)`, `set_exp(now, lifetime)` and `set_jti()` (`jti` is the fresh
uuid, passed in). -/
def newTokenPayload (s : Settings) (token_type : String) (lifetime : Nat)
    (now : Nat) (jti : String) : Claims :=
  (((((Claims.mk []).set s.TOKEN_TYPE_CLAIM (.str token_type)).set
      IAT_CLAIM (.num now)).set
      EXP_CLAIM (.num (now + lifetime))).set
      s.JTI_CLAIM (.str jti))

/-- `Token.create_for_user`: a fresh token with the user-id claim added. -/
def create_for_user (s : Settings) (token_type : String) (lifetime : Nat)
    (now : Nat) (jti : String) (user_id : Nat) : Claims :=
  (newTokenPayload s token_type lifetime now jti).set s.USER_ID_CLAIM (.num user_id)

/-- `RefreshToken.create_for_user`: token type `"refresh"`, refresh
lifetime. -/
def refreshTokenPayload (s : Settings) (now : Nat) (jti : String)
    (uid : Nat) : Claims :=
  create_for_user s "refresh" s.REFRESH_TOKEN_LIFETIME now jti uid

/-- `RefreshToken.no_copy_claims`. -/
def noCopyClaims (s : Settings) : List String :=
  [s.TOKEN_TYPE_CLAIM, s.JTI_CLAIM, EXP_CLAIM, IAT_CLAIM]

/-- The claim-copying loop of `RefreshToken.access_token`: for each source
claim in order, skip it when its name is in `no_copy`, else assign it. -/
def copyClaims (noCopy : List String) :
    List (String × ClaimVal) → Claims → Claims
  | [], dst => dst
  | kv :: rest, dst =>
      copyClaims noCopy rest
        (if noCopy.contains kv.1 then dst else dst.set kv.1 kv.2)

/-- `RefreshToken.access_token`: a fresh access token (built at its own
construction time `accessNow`), its `exp` re-set from the refresh token's
`current_time`, then every refresh claim outside `no_copy_claims` copied
over. -/
def accessTokenOf (s : Settings) (refPayload : Claims) (refNow accessNow : Nat)
    (accessJti : String) : Claims :=
  let access := newTokenPayload s "access_token" s.ACCESS_TOKEN_LIFETIME
    accessNow accessJti
  let access' := access.set EXP_CLAIM (.num (refNow + s.ACCESS_TOKEN_LIFETIME))
  copyClaims (noCopyClaims s) refPayload.kvs access'

/-- `OutstandingToken` row (`src/api/database/models.py`); the raw token
string column holds the signed payload, modelled by the payload itself.
`save()` never sets the `issued_at` column, so it is omitted. -/
structure OutstandingToken where
  jti : String
  user_id : Nat
  token : Claims
  expire_at : Nat
  revoked_at : Option Nat
deriving DecidableEq, Repr

/-- The state the token code reads and writes: the user table (only ids
matter here) and the outstanding-token table. -/
structure AuthDB where
  users : List Nat
  tokens : List OutstandingToken
deriving DecidableEq, Repr

/-- Errors of the token layer: `TokenError`, its subtype
`ExpiredTokenError`, an `HTTPException` raised in the route body, and any
other Python exception (`KeyError`/`TypeError`/`ValueError`). -/
inductive AuthErr where
  | tokenError (msg : String)
  | expiredToken (msg : String)
  | http (e : HttpError)
  | pyError
deriving DecidableEq, Repr

/-- Python `int(...)` applied to a claim value. -/
def valToNat : ClaimVal → Option Nat
  | .num n => some n
  | .str s => s.toNat?

/-- Python falsiness of a claim value (`if not user_id`). -/
def valFalsy : ClaimVal → Bool
  | .num n => n == 0
  | .str s => s == ""

/-- `RefreshToken.save`: read jti, exp and user id from the payload, require
the user row, then `get_or_create` an `OutstandingToken` keyed by jti.
Payloads built by this code always carry a string jti and an integer exp;
other shapes cannot reach the database write and are folded into the
generic-exception outcome. -/
def tokenSave (s : Settings) (db : AuthDB) (payload : Claims) :
    AuthDB × Except AuthErr OutstandingToken :=
  match payload.get s.JTI_CLAIM, payload.get EXP_CLAIM with
  | some (.str jti), some (.num exp) =>
      match payload.get s.USER_ID_CLAIM with
      | none => (db, .error .pyError)
      | some v =>
          match valToNat v with
          | none => (db, .error .pyError)
          | some uid =>
              if db.users.contains uid then
                match db.tokens.find? (fun t => t.jti == jti) with
                | some obj => (db, .ok obj)
                | none =>
                    ({ db with tokens :=
                        db.tokens ++ [⟨jti, uid, payload, exp, none⟩] },
                      .ok ⟨jti, uid, payload, exp, none⟩)
              else (db, .error (.tokenError "Token must have a user"))
  | _, _ => (db, .error .pyError)

/-- `session.exec(select(OutstandingToken).filter_by(jti=jti)).first()`
followed by the unconditional `token.revoked_at = epoch(current_time)`:
the first matching row's `revoked_at` is overwritten, found or not the
rest of the table is untouched. -/
def revokeFirst : List OutstandingToken → String → Nat → List OutstandingToken
  | [], _, _ => []
  | t :: ts, jti, now =>
      if t.jti = jti then { t with revoked_at := some now } :: ts
      else t :: revokeFirst ts jti now

/-- `RefreshToken.revoke`: `current_time` is the revoking token object's
construction time.  A missing jti claim raises `KeyError`; a non-string jti
matches no stored row. -/
def tokenRevoke (s : Settings) (db : AuthDB) (payload : Claims)
    (current_time : Nat) : AuthDB × Except AuthErr Unit :=
  match payload.get s.JTI_CLAIM with
  | none => (db, .error .pyError)
  | some (.num _) => (db, .ok ())
  | some (.str jti) =>
      ({ db with tokens := revokeFirst db.tokens jti current_time }, .ok ())

/-- A presented token string: its decoded payload plus whether the signature
verifies against the configured secret (false covers tampered or otherwise
malformed tokens). -/
structure Jwt where
  payload : Claims
  sigValid : Bool
deriving DecidableEq, Repr

/-- `Token.__init__` with a token string: `jwt.decode` verifies the
signature first (`InvalidTokenError` → `TokenError`), then validates `exp`
(`ExpiredSignatureError` → `ExpiredTokenError`; PyJWT also rejects a
non-integer `exp` as a decode error), then `verify()` requires the
configured jti claim. -/
def token_init (s : Settings) (j : Jwt) (now : Nat) (verify : Bool) :
    Except AuthErr Claims :=
  if j.sigValid = false then .error (.tokenError "Token is invalid")
  else
    match j.payload.get EXP_CLAIM with
    | some (.str _) => .error (.tokenError "Token is invalid")
    | some (.num e) =>
        if e < now then .error (.expiredToken "Token is expired")
        else
          if verify && (j.payload.get s.JTI_CLAIM).isNone then
            .error (.tokenError "Token has no id")
          else .ok j.payload
    | none =>
        if verify && (j.payload.get s.JTI_CLAIM).isNone then
          .error (.tokenError "Token has no id")
        else .ok j.payload

/-- `filter_by(jti=payload_value)`: a stored (string) jti only ever matches
a string claim value. -/
def valEqStr (v : ClaimVal) (x : String) : Bool :=
  match v with
  | .str s => s == x
  | .num _ => false

/-- The body of the `try` block of the `/refresh` route
(`src/api/routes/auth.py`): validate the token, look its jti up, check
revocation and persisted expiry, resolve the user, then issue-and-save a new
refresh token and revoke the presented one.  `newJti`/`newAccessJti` stand
for the fresh uuids. -/
def refreshEndpointInner (s : Settings) (db : AuthDB) (j : Jwt) (now : Nat)
    (newJti newAccessJti : String) : AuthDB × Except AuthErr (Claims × Claims) :=
  match token_init s j now true with
  | .error e => (db, .error e)
  | .ok payload =>
      match payload.get s.JTI_CLAIM with
      | none => (db, .error .pyError)
      | some jv =>
          match db.tokens.find? (fun t => valEqStr jv t.jti) with
          | none => (db, .error (.http ⟨401, "Invalid refresh token"⟩))
          | some row =>
              if row.revoked_at.isSome then
                (db, .error (.http ⟨401, "Refresh token has been revoked"⟩))
              else if row.expire_at < now then
                (db, .error (.http ⟨401, "Refresh token has expired"⟩))
              else
                match payload.get s.USER_ID_CLAIM with
                | none => (db, .error (.http ⟨401, "Invalid token payload"⟩))
                | some uv =>
                    if valFalsy uv then
                      (db, .error (.http ⟨401, "Invalid token payload"⟩))
                    else
                      match valToNat uv with
                      | none => (db, .error .pyError)
                      | some uid =>
                          if db.users.contains uid then
                            match tokenSave s db
                                (refreshTokenPayload s now newJti uid) with
                            | (db1, .error e) => (db1, .error e)
                            | (db1, .ok _) =>
                                match tokenRevoke s db1 payload now with
                                | (db2, .error e) => (db2, .error e)
                                | (db2, .ok _) =>
                                    (db2, .ok (refreshTokenPayload s now newJti uid,
                                      accessTokenOf s
                                        (refreshTokenPayload s now newJti uid)
                                        now now newAccessJti))
                          else (db, .error (.http ⟨401, "User not found"⟩))

/-- The whole `/refresh` handler: `except TokenError` re-raises 401 with
`"Token validation failed: ..."`, and the final `except Exception` — which
also catches the `HTTPException`s raised inside the `try` — replaces every
other failure with a 401 `"Invalid refresh token"`. -/
def refreshEndpoint (s : Settings) (db : AuthDB) (j : Jwt) (now : Nat)
    (newJti newAccessJti : String) : AuthDB × Except HttpError (Claims × Claims) :=
  match refreshEndpointInner s db j now newJti newAccessJti with
  | (db', .ok pair) => (db', .ok pair)
  | (db', .error (.tokenError m)) =>
      (db', .error ⟨401, "Token validation failed: " ++ m⟩)
  | (db', .error (.expiredToken m)) =>
      (db', .error ⟨401, "Token validation failed: " ++ m⟩)
  | (db', .error (.http _)) => (db', .error ⟨401, "Invalid refresh token"⟩)
  | (db', .error .pyError) => (db', .error ⟨401, "Invalid refresh token"⟩)

/-- The token-issuing part of the `/login` route: build a refresh token for
the user, `save()` it, and derive the access token. -/
def issueTokens (s : Settings) (db : AuthDB) (uid : Nat) (now : Nat)
    (refJti accessJti : String) (accessNow : Nat) :
    AuthDB × Except AuthErr (Claims × Claims × OutstandingToken) :=
  let ref := refreshTokenPayload s now refJti uid
  match tokenSave s db ref with
  | (db1, .error e) => (db1, .error e)
  | (db1, .ok row) =>
      (db1, .ok (ref, accessTokenOf s ref now accessNow accessJti, row))

/-- Concrete claim-name configuration used by the concrete instances below
(the repository's committed config module does not pin these values; any
well-formed assignment works for the general theorems). -/
def demoSettings : Settings := ⟨"token_type", "jti", "user_id", 1800, 604800⟩

/-! ### Claims-dictionary lemmas -/

theorem claims_find?_map_replace (l : List (String × ClaimVal)) (k : String)
    (v : ClaimVal) (h : l.any (fun kv => kv.1 == k) = true) :
    (l.map (fun kv => if kv.1 = k then (k, v) else kv)).find?
        (fun kv => kv.1 == k) = some (k, v) := by
  induction l with
  | nil => simp at h
  | cons hd tl ih =>
      by_cases hh : hd.1 = k
      · simp only [List.map_cons, if_pos hh]
        exact List.find?_cons_of_pos _ (by simp)
      · simp only [List.map_cons, if_neg hh]
        rw [List.find?_cons_of_neg _ (by simpa using hh)]
        apply ih
        simp only [List.any_cons, Bool.or_eq_true] at h
        rcases h with h | h
        · exact absurd (by simpa using h) hh
        · exact h

theorem claims_find?_append_single (l : List (String × ClaimVal)) (k : String)
    (v : ClaimVal) (h : l.any (fun kv => kv.1 == k) = false) :
    (l ++ [(k, v)]).find? (fun kv => kv.1 == k) = some (k, v) := by
  induction l with
  | nil => exact List.find?_cons_of_pos _ (by simp)
  | cons hd tl ih =>
      simp only [List.any_cons, Bool.or_eq_false_iff] at h
      rw [List.cons_append, List.find?_cons_of_neg _ (by simp [h.1])]
      exact ih h.2

theorem claims_find?_map_replace_ne (l : List (String × ClaimVal))
    (k : String) (v : ClaimVal) (k' : String) (hne : k' ≠ k) :
    (l.map (fun kv => if kv.1 = k then (k, v) else kv)).find?
        (fun kv => kv.1 == k')
      = l.find? (fun kv => kv.1 == k') := by
  induction l with
  | nil => simp
  | cons hd tl ih =>
      by_cases hh : hd.1 = k
      · simp only [List.map_cons, if_pos hh]
        rw [List.find?_cons_of_neg _
              (by simp only [beq_iff_eq]; exact fun hx => hne hx.symm),
            List.find?_cons_of_neg _
              (by simp only [beq_iff_eq, hh]; exact fun hx => hne hx.symm)]
        exact ih
      · simp only [List.map_cons, if_neg hh]
        by_cases hq : hd.1 = k'
        · rw [List.find?_cons_of_pos _ (by simpa using hq),
              List.find?_cons_of_pos _ (by simpa using hq)]
        · rw [List.find?_cons_of_neg _ (by simpa using hq),
              List.find?_cons_of_neg _ (by simpa using hq)]
          exact ih

theorem claims_find?_append_ne (l : List (String × ClaimVal)) (k : String)
    (v : ClaimVal) (k' : String) (hne : k' ≠ k) :
    (l ++ [(k, v)]).find? (fun kv => kv.1 == k')
      = l.find? (fun kv => kv.1 == k') := by
  induction l with
  | nil =>
      rw [List.nil_append,
          List.find?_cons_of_neg _
            (by simp only [beq_iff_eq]; exact fun hx => hne hx.symm)]
  | cons hd tl ih =>
      by_cases hq : hd.1 = k'
      · rw [List.cons_append, List.find?_cons_of_pos _ (by simpa using hq),
            List.find?_cons_of_pos _ (by simpa using hq)]
      · rw [List.cons_append, List.find?_cons_of_neg _ (by simpa using hq),
            List.find?_cons_of_neg _ (by simpa using hq)]
        exact ih

theorem Claims.get_set_self (c : Claims) (k : String) (v : ClaimVal) :
    (c.set k v).get k = some v := by
  unfold Claims.set Claims.get
  by_cases h : c.kvs.any (fun kv => kv.1 == k) = true
  · rw [if_pos h]
    rw [show (Claims.mk (c.kvs.map (fun kv => if kv.1 = k then (k, v) else kv))).kvs
          = c.kvs.map (fun kv => if kv.1 = k then (k, v) else kv) from rfl]
    rw [claims_find?_map_replace _ _ _ h]
    rfl
  · rw [if_neg h]
    rw [show (Claims.mk (c.kvs ++ [(k, v)])).kvs = c.kvs ++ [(k, v)] from rfl]
    rw [claims_find?_append_single _ _ _ (Bool.eq_false_iff.mpr h)]
    rfl

theorem Claims.get_set_ne (c : Claims) (k : String) (k' : String)
    (v : ClaimVal) (h : k' ≠ k) : (c.set k v).get k' = c.get k' := by
  unfold Claims.set Claims.get
  by_cases hA : c.kvs.any (fun kv => kv.1 == k) = true
  · rw [if_pos hA]
    rw [show (Claims.mk (c.kvs.map (fun kv => if kv.1 = k then (k, v) else kv))).kvs
          = c.kvs.map (fun kv => if kv.1 = k then (k, v) else kv) from rfl]
    rw [claims_find?_map_replace_ne _ _ _ _ h]
  · rw [if_neg hA]
    rw [show (Claims.mk (c.kvs ++ [(k, v)])).kvs = c.kvs ++ [(k, v)] from rfl]
    rw [claims_find?_append_ne _ _ _ _ h]

theorem claims_set_keys_nodup (c : Claims) (k : String) (v : ClaimVal)
    (h : (c.kvs.map Prod.fst).Nodup) :
    (((c.set k v).kvs).map Prod.fst).Nodup := by
  unfold Claims.set
  by_cases hA : c.kvs.any (fun kv => kv.1 == k) = true
  · rw [if_pos hA]
    have hkeys : (c.kvs.map (fun kv => if kv.1 = k then (k, v) else kv)).map Prod.fst
        = c.kvs.map Prod.fst := by
      rw [List.map_map]
      apply List.map_congr_left
      intro kv _
      by_cases hk : kv.1 = k
      · simp [hk]
      · simp [hk]
    rw [show (Claims.mk (c.kvs.map (fun kv => if kv.1 = k then (k, v) else kv))).kvs
          = c.kvs.map (fun kv => if kv.1 = k then (k, v) else kv) from rfl]
    rw [hkeys]
    exact h
  · rw [if_neg hA]
    rw [show (Claims.mk (c.kvs ++ [(k, v)])).kvs = c.kvs ++ [(k, v)] from rfl]
    rw [List.map_append]
    have hk : k ∉ c.kvs.map Prod.fst := by
      intro hmem
      apply hA
      rw [List.any_eq_true]
      obtain ⟨kv, hkv, hfst⟩ := List.mem_map.mp hmem
      exact ⟨kv, hkv, by simp [hfst]⟩
    simp only [List.nodup_append, List.map_cons, List.map_nil]
    refine ⟨h, List.nodup_singleton _, ?_⟩
    intro a ha hb
    simp only [List.mem_singleton] at hb
    exact hk (hb ▸ ha)

theorem copyClaims_get_absent (noCopy : List String) (k : String) :
    ∀ (src : List (String × ClaimVal)) (dst : Claims),
      (∀ kv ∈ src, kv.1 ≠ k) →
      (copyClaims noCopy src dst).get k = dst.get k := by
  intro src
  induction src with
  | nil => intro dst _; rfl
  | cons hd tl ih =>
      intro dst hk
      show (copyClaims noCopy tl
        (if noCopy.contains hd.1 then dst else dst.set hd.1 hd.2)).get k
          = dst.get k
      rw [ih _ (fun kv hkv => hk kv (List.mem_cons_of_mem _ hkv))]
      by_cases hc : noCopy.contains hd.1 = true
      · rw [if_pos hc]
      · rw [if_neg hc]
        exact Claims.get_set_ne dst hd.1 k hd.2
          (fun hx => hk hd (List.mem_cons_self _ _) hx.symm)

theorem copyClaims_get_found (noCopy : List String) (k : String)
    (hk : noCopy.contains k = false) :
    ∀ (src : List (String × ClaimVal)) (dst : Claims),
      (src.map Prod.fst).Nodup →
      (copyClaims noCopy src dst).get k
        = (match src.find? (fun kv => kv.1 == k) with
           | some kv => some kv.2
           | none => dst.get k) := by
  intro src
  induction src with
  | nil => intro dst _; rfl
  | cons hd tl ih =>
      intro dst hnd
      have hnd' : (tl.map Prod.fst).Nodup :=
        (List.nodup_cons.mp (by simpa using hnd)).2
      by_cases hh : hd.1 = k
      · have hcont : noCopy.contains hd.1 = false := by rw [hh]; exact hk
        show (copyClaims noCopy tl
          (if noCopy.contains hd.1 then dst else dst.set hd.1 hd.2)).get k = _
        rw [List.find?_cons_of_pos _ (by simpa using hh)]
        rw [if_neg (by rw [hcont]; exact Bool.false_ne_true)]
        have habs : ∀ kv ∈ tl, kv.1 ≠ k := by
          intro kv hkv hkk
          have hmem : hd.1 ∈ tl.map Prod.fst := by
            rw [hh, ← hkk]
            exact List.mem_map_of_mem _ hkv
          exact (List.nodup_cons.mp (by simpa using hnd)).1 hmem
        rw [copyClaims_get_absent noCopy k tl _ habs]
        rw [← hh]
        exact Claims.get_set_self dst hd.1 hd.2
      · show (copyClaims noCopy tl
          (if noCopy.contains hd.1 then dst else dst.set hd.1 hd.2)).get k = _
        rw [List.find?_cons_of_neg _ (by simpa using hh)]
        by_cases hc : noCopy.contains hd.1 = true
        · rw [if_pos hc]
          exact ih dst hnd'
        · rw [if_neg hc]
          rw [ih (dst.set hd.1 hd.2) hnd']
          rcases hf : tl.find? (fun kv => kv.1 == k) with _ | kv
          · rw [hf]
            exact Claims.get_set_ne dst hd.1 k hd.2 (fun hx => hh hx.symm)
          · rw [hf]

/-! ### C8: token validation outcomes -/

/-- Whether the decoded exp claim has a shape PyJWT accepts (absent or an
integer; a string exp is a decode error). -/
def expClaimOk (p : Claims) : Bool :=
  match p.get EXP_CLAIM with
  | some (.str _) => false
  | _ => true

/-- **C8 (amended).** Validation checks the signature first: among
signature-valid tokens the failure is `ExpiredTokenError` exactly when the
exp claim is an integer in the past; an invalid signature or structure
(including a non-integer exp) yields the generic `TokenError`; a
signature-valid, unexpired token without the configured jti claim yields
`TokenError`, and otherwise validation returns the decoded claims. -/
theorem token_validation_cases (s : Settings) (j : Jwt) (now : Nat) :
    (token_init s j now true = .error (.expiredToken "Token is expired")
        ↔ j.sigValid = true
          ∧ ∃ e, j.payload.get EXP_CLAIM = some (.num e) ∧ e < now)
    ∧ (j.sigValid = false ∨ expClaimOk j.payload = false
        → ∃ m, token_init s j now true = .error (.tokenError m))
    ∧ (j.sigValid = true → expClaimOk j.payload = true
        → (∀ e, j.payload.get EXP_CLAIM = some (.num e) → ¬ e < now)
        → (j.payload.get s.JTI_CLAIM = none
              → token_init s j now true = .error (.tokenError "Token has no id"))
          ∧ (j.payload.get s.JTI_CLAIM ≠ none
              → token_init s j now true = .ok j.payload)) := by
  rcases hs : j.sigValid with _ | _
  · refine ⟨?_, ?_, ?_⟩
    · constructor
      · intro h
        simp [token_init, hs] at h
      · rintro ⟨h1, -⟩
        exact Bool.noConfusion h1
    · intro _
      exact ⟨"Token is invalid", by simp [token_init, hs]⟩
    · intro h1
      exact absurd h1 (by simp)
  · rcases he : j.payload.get EXP_CLAIM with _ | v
    · have hred : token_init s j now true
          = if (j.payload.get s.JTI_CLAIM).isNone then
              .error (.tokenError "Token has no id")
            else .ok j.payload := by
        simp [token_init, hs, he]
      refine ⟨?_, ?_, ?_⟩
      · rw [hred]
        constructor
        · intro h
          split at h <;> exact absurd h (by simp)
        · rintro ⟨-, e, hget, -⟩
          exact Option.noConfusion hget
      · intro h
        rcases h with h | h
        · exact absurd h (by simp)
        · have hok : expClaimOk j.payload = true := by
            unfold expClaimOk; rw [he]
          rw [hok] at h; exact absurd h (by simp)
      · intro _ _ _
        constructor
        · intro hj
          rw [hred, hj]
          simp
        · intro hj
          rcases hx : j.payload.get s.JTI_CLAIM with _ | v2
          · exact absurd hx hj
          · rw [hred, hx]
            simp
    · rcases v with s' | e
      · have hred : token_init s j now true
            = .error (.tokenError "Token is invalid") := by
          simp [token_init, hs, he]
        refine ⟨?_, ?_, ?_⟩
        · rw [hred]
          constructor
          · intro h; exact absurd h (by simp)
          · rintro ⟨-, e, hget, -⟩
            simp at hget
        · intro _
          exact ⟨"Token is invalid", hred⟩
        · intro _ hok _
          have hbad : expClaimOk j.payload = false := by
            unfold expClaimOk; rw [he]
          rw [hbad] at hok
          exact absurd hok (by simp)
      · by_cases hlt : e < now
        · have hred : token_init s j now true
              = .error (.expiredToken "Token is expired") := by
            simp [token_init, hs, he, hlt]
          refine ⟨?_, ?_, ?_⟩
          · rw [hred]
            exact ⟨fun _ => ⟨rfl, e, rfl, hlt⟩, fun _ => rfl⟩
          · intro h
            rcases h with h | h
            · exact absurd h (by simp)
            · have hok : expClaimOk j.payload = true := by
                unfold expClaimOk; rw [he]
              rw [hok] at h; exact absurd h (by simp)
          · intro _ _ hnl
            exact absurd hlt (hnl e rfl)
        · have hred : token_init s j now true
              = if (j.payload.get s.JTI_CLAIM).isNone then
                  .error (.tokenError "Token has no id")
                else .ok j.payload := by
            simp [token_init, hs, he, hlt]
          refine ⟨?_, ?_, ?_⟩
          · rw [hred]
            constructor
            · intro h
              split at h <;> exact absurd h (by simp)
            · rintro ⟨-, e', hget, hlt'⟩
              simp only [Option.some.injEq, ClaimVal.num.injEq] at hget
              exfalso
              omega
          · intro h
            rcases h with h | h
            · exact absurd h (by simp)
            · have hok : expClaimOk j.payload = true := by
                unfold expClaimOk; rw [he]
              rw [hok] at h; exact absurd h (by simp)
          · intro _ _ _
            constructor
            · intro hj
              rw [hred, hj]
              simp
            · intro hj
              rcases hx : j.payload.get s.JTI_CLAIM with _ | v2
              · exact absurd hx hj
              · rw [hred, hx]
                simp

/-- Witness for C8's amended statement: a signature-valid token with exp 5
validated at time 10 fails with the expired variant. -/
theorem token_validation_cases_witness :
    token_init demoSettings ⟨⟨[(EXP_CLAIM, .num 5), ("jti", .str "x")]⟩, true⟩
        10 true
      = .error (.expiredToken "Token is expired") :=
  ((token_validation_cases demoSettings
      ⟨⟨[(EXP_CLAIM, .num 5), ("jti", .str "x")]⟩, true⟩ 10).1).mpr
    ⟨rfl, 5, rfl, by decide⟩

/-- Counterexample to C8 as stated: a tampered (signature-invalid) token
whose exp claim is in the past fails with the generic `TokenError`, not with
`ExpiredTokenError` — the signature is verified before exp, so "expired
exactly when exp is in the past" does not hold. -/
theorem token_expired_masked_by_invalid :
    token_init demoSettings ⟨⟨[(EXP_CLAIM, .num 0), ("jti", .str "x")]⟩, false⟩
        10 true
      = .error (.tokenError "Token is invalid")
    ∧ (⟨⟨[(EXP_CLAIM, .num 0), ("jti", .str "x")]⟩, false⟩ : Jwt).payload.get
        EXP_CLAIM = some (.num 0)
    ∧ (0 : Nat) < 10
    ∧ (Except.error (.tokenError "Token is invalid") : Except AuthErr Claims)
      ≠ .error (.expiredToken "Token is expired") :=
  ⟨rfl, rfl, by decide, by simp⟩

/-! ### C9: revocation semantics -/

theorem revokeFirst_not_found_p (p : OutstandingToken → Bool)
    (jti : String) (now : Nat)
    (hp : ∀ t, p t = true ↔ t.jti = jti) :
    ∀ (l : List OutstandingToken), l.find? p = none → revokeFirst l jti now = l := by
  intro l
  induction l with
  | nil => intro _; rfl
  | cons hd tl ih =>
      intro h
      have h' := List.find?_eq_none.mp h
      show (if hd.jti = jti then _ else _) = _
      rw [if_neg (fun hx => h' hd (List.mem_cons_self _ _) ((hp hd).mpr hx))]
      rw [ih (List.find?_eq_none.mpr (fun t ht => h' t (List.mem_cons_of_mem _ ht)))]

theorem revokeFirst_found_p (p : OutstandingToken → Bool)
    (jti : String) (now : Nat)
    (hp : ∀ t, p t = true ↔ t.jti = jti) :
    ∀ (l : List OutstandingToken) (row : OutstandingToken),
      l.find? p = some row →
      (revokeFirst l jti now).find? p = some { row with revoked_at := some now } := by
  intro l
  induction l with
  | nil => intro row h; simp [List.find?] at h
  | cons hd tl ih =>
      intro row h
      by_cases hh : hd.jti = jti
      · rw [List.find?_cons_of_pos _ ((hp hd).mpr hh)] at h
        injection h with h
        subst h
        have hrw : revokeFirst (hd :: tl) jti now
            = { hd with revoked_at := some now } :: tl := by
          simp only [revokeFirst, if_pos hh]
        rw [hrw]
        exact List.find?_cons_of_pos _ ((hp _).mpr hh)
      · rw [List.find?_cons_of_neg _ (fun hx => hh ((hp hd).mp hx))] at h
        have hrw : revokeFirst (hd :: tl) jti now
            = hd :: revokeFirst tl jti now := by
          simp only [revokeFirst, if_neg hh]
        rw [hrw]
        rw [List.find?_cons_of_neg _ (fun hx => hh ((hp hd).mp hx))]
        exact ih row h

theorem revokeFirst_idem (jti : String) (now : Nat) :
    ∀ (l : List OutstandingToken),
      revokeFirst (revokeFirst l jti now) jti now = revokeFirst l jti now := by
  intro l
  induction l with
  | nil => rfl
  | cons hd tl ih =>
      by_cases hh : hd.jti = jti
      · simp [revokeFirst, hh]
      · simp [revokeFirst, hh, ih]

/-- **C9 (amended).** `revoke` is a no-op only when no row carries the
token's jti.  When a matching row exists — active or already revoked — its
`revoked_at` is overwritten with the revoking token object's current time
(so revoking an already-revoked row at a later time does change the stored
state), and revoking twice with the same token object (same current time)
leaves exactly the state of revoking once. -/
theorem revoke_semantics (s : Settings) (db : AuthDB) (p : Claims)
    (now : Nat) (jti : String)
    (hj : p.get s.JTI_CLAIM = some (.str jti)) :
    (db.tokens.find? (fun t => t.jti == jti) = none
        → tokenRevoke s db p now = (db, .ok ()))
    ∧ (∀ row, db.tokens.find? (fun t => t.jti == jti) = some row
        → (tokenRevoke s db p now).1.tokens.find? (fun t => t.jti == jti)
            = some { row with revoked_at := some now }
          ∧ (tokenRevoke s db p now).2 = .ok ())
    ∧ (tokenRevoke s (tokenRevoke s db p now).1 p now).1
        = (tokenRevoke s db p now).1 := by
  have hp : ∀ t : OutstandingToken,
      ((fun t : OutstandingToken => t.jti == jti) t) = true ↔ t.jti = jti := by
    intro t; simp
  refine ⟨?_, ?_, ?_⟩
  · intro h
    simp only [tokenRevoke, hj]
    rw [revokeFirst_not_found_p _ _ _ hp _ h]
  · intro row h
    constructor
    · simp only [tokenRevoke, hj]
      exact revokeFirst_found_p _ _ _ hp _ _ h
    · simp only [tokenRevoke, hj]
  · simp only [tokenRevoke, hj]
    rw [revokeFirst_idem]

/-- Witness for C9's amended statement: revoking a jti that has no stored
row is a no-op, and the one stored row with the jti gets `revoked_at`
overwritten. -/
theorem revoke_semantics_witness :
    tokenRevoke demoSettings ⟨[1], []⟩ ⟨[("jti", .str "j9")]⟩ 10
        = (⟨[1], []⟩, .ok ())
    ∧ (tokenRevoke demoSettings ⟨[1], [⟨"j1", 1, ⟨[]⟩, 100, some 5⟩]⟩
        ⟨[("jti", .str "j1")]⟩ 10).1.tokens.find? (fun t => t.jti == "j1")
        = some ⟨"j1", 1, ⟨[]⟩, 100, some 10⟩ := by
  constructor
  · exact (revoke_semantics demoSettings ⟨[1], []⟩ ⟨[("jti", .str "j9")]⟩
      10 "j9" rfl).1 rfl
  · exact ((revoke_semantics demoSettings ⟨[1], [⟨"j1", 1, ⟨[]⟩, 100, some 5⟩]⟩
      ⟨[("jti", .str "j1")]⟩ 10 "j1" rfl).2.1 ⟨"j1", 1, ⟨[]⟩, 100, some 5⟩ rfl).1

/-- Counterexample to C9 as stated: the matching row is already revoked
(`revoked_at = 5`), yet revoking at current time 10 changes the stored state
— `revoked_at` is overwritten, not left alone. -/
theorem revoke_not_noop_when_already_revoked :
    (tokenRevoke demoSettings ⟨[1], [⟨"j1", 1, ⟨[]⟩, 100, some 5⟩]⟩
        ⟨[("jti", .str "j1")]⟩ 10).1
      = ⟨[1], [⟨"j1", 1, ⟨[]⟩, 100, some 10⟩]⟩
    ∧ (⟨[1], [⟨"j1", 1, ⟨[]⟩, 100, some 10⟩]⟩ : AuthDB)
      ≠ ⟨[1], [⟨"j1", 1, ⟨[]⟩, 100, some 5⟩]⟩ :=
  ⟨rfl, by decide⟩

/-! ### C7: issued pair — persisted expiry and shared claims -/

/-- **C7.** Issuing a token pair for an existing user (with a fresh jti and a
well-formed claim-name configuration) persists an `OutstandingToken` whose
expiry is the issued-at time plus the refresh lifetime, and the access
token's claims agree with the refresh token's on every claim outside
type/jti/exp/iat. -/
theorem issue_expiry_and_claims (s : Settings) (db : AuthDB)
    (uid now accessNow : Nat) (refJti accessJti : String)
    (hJE : s.JTI_CLAIM ≠ EXP_CLAIM) (hUE : s.USER_ID_CLAIM ≠ EXP_CLAIM)
    (hJI : s.JTI_CLAIM ≠ IAT_CLAIM) (hUI : s.USER_ID_CLAIM ≠ IAT_CLAIM)
    (hUJ : s.USER_ID_CLAIM ≠ s.JTI_CLAIM)
    (huser : db.users.contains uid = true)
    (hfresh : db.tokens.find? (fun t => t.jti == refJti) = none) :
    ∃ row,
      issueTokens s db uid now refJti accessJti accessNow
        = ({ db with tokens := db.tokens ++ [row] },
           .ok (refreshTokenPayload s now refJti uid,
                accessTokenOf s (refreshTokenPayload s now refJti uid)
                  now accessNow accessJti,
                row))
      ∧ row.expire_at = now + s.REFRESH_TOKEN_LIFETIME
      ∧ (refreshTokenPayload s now refJti uid).get IAT_CLAIM = some (.num now)
      ∧ ∀ k, ¬ k ∈ noCopyClaims s →
          (accessTokenOf s (refreshTokenPayload s now refJti uid)
              now accessNow accessJti).get k
            = (refreshTokenPayload s now refJti uid).get k := by
  have hgU : (refreshTokenPayload s now refJti uid).get s.USER_ID_CLAIM
      = some (.num uid) := Claims.get_set_self _ _ _
  have hgJ : (refreshTokenPayload s now refJti uid).get s.JTI_CLAIM
      = some (.str refJti) := by
    unfold refreshTokenPayload create_for_user
    rw [Claims.get_set_ne _ _ _ _ (fun hx => hUJ hx.symm)]
    exact Claims.get_set_self _ _ _
  have hgE : (refreshTokenPayload s now refJti uid).get EXP_CLAIM
      = some (.num (now + s.REFRESH_TOKEN_LIFETIME)) := by
    unfold refreshTokenPayload create_for_user newTokenPayload
    rw [Claims.get_set_ne _ _ _ _ (Ne.symm hUE),
        Claims.get_set_ne _ _ _ _ (Ne.symm hJE)]
    exact Claims.get_set_self _ _ _
  have hgI : (refreshTokenPayload s now refJti uid).get IAT_CLAIM
      = some (.num now) := by
    unfold refreshTokenPayload create_for_user newTokenPayload
    rw [Claims.get_set_ne _ _ _ _ (Ne.symm hUI),
        Claims.get_set_ne _ _ _ _ (Ne.symm hJI),
        Claims.get_set_ne _ _ _ _ (by decide : IAT_CLAIM ≠ EXP_CLAIM)]
    exact Claims.get_set_self _ _ _
  have hsave : tokenSave s db (refreshTokenPayload s now refJti uid)
      = ({ db with tokens := db.tokens
            ++ [⟨refJti, uid, refreshTokenPayload s now refJti uid,
                  now + s.REFRESH_TOKEN_LIFETIME, none⟩] },
         .ok ⟨refJti, uid, refreshTokenPayload s now refJti uid,
              now + s.REFRESH_TOKEN_LIFETIME, none⟩) := by
    simp only [tokenSave, hgJ, hgE, hgU, valToNat, huser, if_true, hfresh]
  have hnodup : ((refreshTokenPayload s now refJti uid).kvs.map Prod.fst).Nodup := by
    unfold refreshTokenPayload create_for_user newTokenPayload
    apply claims_set_keys_nodup
    apply claims_set_keys_nodup
    apply claims_set_keys_nodup
    apply claims_set_keys_nodup
    apply claims_set_keys_nodup
    exact List.nodup_nil
  refine ⟨⟨refJti, uid, refreshTokenPayload s now refJti uid,
      now + s.REFRESH_TOKEN_LIFETIME, none⟩, ?_, rfl, hgI, ?_⟩
  · simp only [issueTokens, hsave]
  · intro k hk
    have hk' : k ≠ s.TOKEN_TYPE_CLAIM ∧ k ≠ s.JTI_CLAIM
        ∧ k ≠ EXP_CLAIM ∧ k ≠ IAT_CLAIM := by
      simp only [noCopyClaims, List.mem_cons, List.not_mem_nil, or_false,
        not_or] at hk
      exact hk
    obtain ⟨hkTT, hkJ, hkE, hkI⟩ := hk'
    have hcontains : (noCopyClaims s).contains k = false := by
      apply Bool.eq_false_iff.mpr
      intro hc
      exact hk (by simpa using hc)
    rw [show accessTokenOf s (refreshTokenPayload s now refJti uid)
          now accessNow accessJti
        = copyClaims (noCopyClaims s) (refreshTokenPayload s now refJti uid).kvs
            ((newTokenPayload s "access_token" s.ACCESS_TOKEN_LIFETIME
                accessNow accessJti).set EXP_CLAIM
              (.num (now + s.ACCESS_TOKEN_LIFETIME))) from rfl]
    rw [copyClaims_get_found (noCopyClaims s) k hcontains
          (refreshTokenPayload s now refJti uid).kvs _ hnodup]
    rcases hf : (refreshTokenPayload s now refJti uid).kvs.find?
        (fun kv => kv.1 == k) with _ | kv
    · rw [hf]
      have hbase : ((newTokenPayload s "access_token" s.ACCESS_TOKEN_LIFETIME
            accessNow accessJti).set EXP_CLAIM
            (.num (now + s.ACCESS_TOKEN_LIFETIME))).get k = none := by
        unfold newTokenPayload
        rw [Claims.get_set_ne _ _ _ _ hkE,
            Claims.get_set_ne _ _ _ _ hkJ,
            Claims.get_set_ne _ _ _ _ hkE,
            Claims.get_set_ne _ _ _ _ hkI,
            Claims.get_set_ne _ _ _ _ hkTT]
        rfl
      rw [hbase]
      unfold Claims.get
      rw [hf]
      rfl
    · rw [hf]
      unfold Claims.get
      rw [hf]
      rfl

/-- Witness for C7 at a concrete issue: user 1, issued at 1000, fresh jtis,
demo claim names. -/
theorem issue_expiry_and_claims_witness :
    ∃ row,
      issueTokens demoSettings ⟨[1], []⟩ 1 1000 "r1" "a1" 1005
        = ({ (⟨[1], []⟩ : AuthDB) with tokens := ([] : List OutstandingToken) ++ [row] },
           .ok (refreshTokenPayload demoSettings 1000 "r1" 1,
                accessTokenOf demoSettings (refreshTokenPayload demoSettings 1000 "r1" 1)
                  1000 1005 "a1",
                row))
      ∧ row.expire_at = 1000 + demoSettings.REFRESH_TOKEN_LIFETIME
      ∧ (refreshTokenPayload demoSettings 1000 "r1" 1).get IAT_CLAIM
          = some (.num 1000)
      ∧ ∀ k, ¬ k ∈ noCopyClaims demoSettings →
          (accessTokenOf demoSettings (refreshTokenPayload demoSettings 1000 "r1" 1)
              1000 1005 "a1").get k
            = (refreshTokenPayload demoSettings 1000 "r1" 1).get k :=
  issue_expiry_and_claims demoSettings ⟨[1], []⟩ 1 1000 1005 "r1" "a1"
    (by decide) (by decide) (by decide) (by decide) (by decide) (by decide) rfl

/-! ### C1: refresh-token rotation -/

theorem find?_append_some {α : Type} (l l' : List α) (p : α → Bool) (x : α)
    (h : l.find? p = some x) : (l ++ l').find? p = some x := by
  induction l with
  | nil => simp [List.find?] at h
  | cons hd tl ih =>
      rcases hph : p hd with _ | _
      · rw [List.find?_cons_of_neg _ (by simp [hph])] at h
        rw [List.cons_append, List.find?_cons_of_neg _ (by simp [hph])]
        exact ih h
      · rw [List.find?_cons_of_pos _ hph] at h
        rw [List.cons_append, List.find?_cons_of_pos _ hph]
        exact h

theorem tokenSave_tokens (s : Settings) (db : AuthDB) (payload : Claims)
    (db1 : AuthDB) (r : Except AuthErr OutstandingToken)
    (h : tokenSave s db payload = (db1, r)) :
    db1.users = db.users
    ∧ (db1.tokens = db.tokens ∨ ∃ obj, db1.tokens = db.tokens ++ [obj]) := by
  unfold tokenSave at h
  repeat' split at h
  all_goals cases h
  all_goals first
    | exact ⟨rfl, Or.inl rfl⟩
    | exact ⟨rfl, Or.inr ⟨_, rfl⟩⟩

theorem token_init_ok_payload (s : Settings) (j : Jwt) (now : Nat)
    (verify : Bool) (c : Claims) (h : token_init s j now verify = .ok c) :
    c = j.payload := by
  unfold token_init at h
  repeat' split at h
  all_goals first
    | (injection h with h; exact h.symm)
    | exact Except.noConfusion h

/-- Dissecting a successful run of the `/refresh` body: the presented token
decoded, its (string) jti matched an outstanding row, and the resulting
state is the old table (plus possibly the freshly saved row) with the first
row carrying that jti marked revoked at the call's current time. -/
theorem refreshEndpointInner_ok_shape (s : Settings) (db db' : AuthDB)
    (j : Jwt) (now : Nat) (nj na : String) (pair : Claims × Claims)
    (h : refreshEndpointInner s db j now nj na = (db', .ok pair)) :
    token_init s j now true = .ok j.payload
    ∧ ∃ sjti row,
        j.payload.get s.JTI_CLAIM = some (.str sjti)
        ∧ db.tokens.find? (fun t => valEqStr (.str sjti) t.jti) = some row
        ∧ ∃ mid, (mid = db.tokens ∨ ∃ obj, mid = db.tokens ++ [obj])
            ∧ db'.tokens = revokeFirst mid sjti now := by
  unfold refreshEndpointInner at h
  split at h
  · exact absurd h (by simp)
  next payload heqInit =>
    have hpay := token_init_ok_payload s j now true payload heqInit
    subst hpay
    split at h
    · exact absurd h (by simp)
    next jv heqJti =>
      split at h
      · exact absurd h (by simp)
      next row heqFind =>
        split at h
        · exact absurd h (by simp)
        next hrev =>
          split at h
          · exact absurd h (by simp)
          next hexp =>
            split at h
            · exact absurd h (by simp)
            next uv heqUser =>
              split at h
              · exact absurd h (by simp)
              next hfalsy =>
                split at h
                · exact absurd h (by simp)
                next uid heqNat =>
                  split at h
                  case isFalse => exact absurd h (by simp)
                  case isTrue hcont =>
                    split at h
                    next db1 e heqSave => exact absurd h (by simp)
                    next db1 okRow heqSave =>
                      split at h
                      next db2 e heqRev => exact absurd h (by simp)
                      next db2 u heqRev =>
                        cases h
                        have hjvstr : ∃ sjti, jv = ClaimVal.str sjti := by
                          have hpx := List.find?_some heqFind
                          rcases jv with s' | n
                          · exact ⟨s', rfl⟩
                          · simp [valEqStr] at hpx
                        obtain ⟨sjti, rfl⟩ := hjvstr
                        refine ⟨heqInit, sjti, row, heqJti, heqFind, db1.tokens,
                          (tokenSave_tokens s db _ db1 _ heqSave).2, ?_⟩
                        have hrevEq : tokenRevoke s db1 j.payload now
                            = ({ db1 with tokens := revokeFirst db1.tokens sjti now },
                               .ok ()) := by
                          simp only [tokenRevoke, heqJti]
                        rw [heqRev] at hrevEq
                        have hdb2 := congrArg Prod.fst hrevEq
                        simp only at hdb2
                        rw [hdb2]

/-- **C1 (amended).** After a successful refresh, presenting the same
original token again (while it still decodes) fails: the persisted row's
`revoked_at` was set by the first call, so the body hits the revoked check —
but the surrounding `except Exception` replaces that 401 detail with the
generic "Invalid refresh token", which is what the caller observes.  In
particular each refresh token yields at most one successful refresh. -/
theorem refresh_rotation (s : Settings) (db db' : AuthDB) (j : Jwt)
    (t1 t2 : Nat) (j1 a1 j2 a2 : String) (pair : Claims × Claims)
    (h1 : refreshEndpoint s db j t1 j1 a1 = (db', .ok pair))
    (h2 : token_init s j t2 true = .ok j.payload) :
    refreshEndpointInner s db' j t2 j2 a2
        = (db', .error (.http ⟨401, "Refresh token has been revoked"⟩))
    ∧ refreshEndpoint s db' j t2 j2 a2
        = (db', .error ⟨401, "Invalid refresh token"⟩) := by
  have hInner : refreshEndpointInner s db j t1 j1 a1 = (db', .ok pair) := by
    unfold refreshEndpoint at h1
    split at h1
    next db0 pair0 heq =>
      injection h1 with ha hb
      injection hb with hb
      rw [ha, hb] at heq
      exact heq
    all_goals exact absurd h1 (by simp)
  obtain ⟨-, sjti, row, hjv, hfind, mid, hmid, hd'⟩ :=
    refreshEndpointInner_ok_shape s db db' j t1 j1 a1 pair hInner
  have hp : ∀ t : OutstandingToken,
      ((fun t : OutstandingToken => valEqStr (.str sjti) t.jti) t) = true
        ↔ t.jti = sjti := by
    intro t
    show (sjti == t.jti) = true ↔ t.jti = sjti
    rw [beq_iff_eq]
    exact eq_comm
  have hmidfind : mid.find? (fun t => valEqStr (.str sjti) t.jti) = some row := by
    rcases hmid with hmid | ⟨obj, hmid⟩
    · rw [hmid]; exact hfind
    · rw [hmid]; exact find?_append_some _ _ _ _ hfind
  have hfind2 : db'.tokens.find? (fun t => valEqStr (.str sjti) t.jti)
      = some { row with revoked_at := some t1 } := by
    rw [hd']
    exact revokeFirst_found_p _ _ _ hp _ _ hmidfind
  have hInner2 : refreshEndpointInner s db' j t2 j2 a2
      = (db', .error (.http ⟨401, "Refresh token has been revoked"⟩)) := by
    simp only [refreshEndpointInner, h2, hjv, hfind2, Option.isSome_some,
      if_true]
  refine ⟨hInner2, ?_⟩
  unfold refreshEndpoint
  rw [hInner2]

/-- The refresh token issued at login time 0 with jti `"j1"` for user 1. -/
def demoRefreshPayload : Claims := refreshTokenPayload demoSettings 0 "j1" 1

/-- State after that login: user 1 exists and the refresh token's row is
outstanding and unrevoked. -/
def demoAuthDB : AuthDB := ⟨[1], [⟨"j1", 1, demoRefreshPayload, 604800, none⟩]⟩

/-- Witness for C1's amended statement at the concrete scenario: after a
successful refresh at time 10, presenting the same token at time 20 hits the
revoked branch internally and surfaces the generic 401. -/
theorem refresh_rotation_witness :
    refreshEndpointInner demoSettings
        (refreshEndpoint demoSettings demoAuthDB ⟨demoRefreshPayload, true⟩
          10 "j2" "a2").1
        ⟨demoRefreshPayload, true⟩ 20 "j3" "a3"
      = ((refreshEndpoint demoSettings demoAuthDB ⟨demoRefreshPayload, true⟩
          10 "j2" "a2").1,
         .error (.http ⟨401, "Refresh token has been revoked"⟩))
    ∧ refreshEndpoint demoSettings
        (refreshEndpoint demoSettings demoAuthDB ⟨demoRefreshPayload, true⟩
          10 "j2" "a2").1
        ⟨demoRefreshPayload, true⟩ 20 "j3" "a3"
      = ((refreshEndpoint demoSettings demoAuthDB ⟨demoRefreshPayload, true⟩
          10 "j2" "a2").1,
         .error ⟨401, "Invalid refresh token"⟩) :=
  refresh_rotation demoSettings demoAuthDB
    (refreshEndpoint demoSettings demoAuthDB ⟨demoRefreshPayload, true⟩
      10 "j2" "a2").1
    ⟨demoRefreshPayload, true⟩ 10 20 "j2" "a2" "j3" "a3"
    (refreshTokenPayload demoSettings 10 "j2" 1,
     accessTokenOf demoSettings (refreshTokenPayload demoSettings 10 "j2" 1)
       10 10 "a2")
    (by rfl) (by rfl)

/-- Counterexample to C1 as stated: the first refresh succeeds, and the
second refresh with the same original token does fail — but the error the
endpoint reports is the catch-all's generic 401 "Invalid refresh token", not
the distinct revoked error the claim promises, because the revoked
`HTTPException` is itself an `Exception` and is swallowed by the final
handler. -/
theorem refresh_second_error_is_generic :
    (refreshEndpoint demoSettings demoAuthDB ⟨demoRefreshPayload, true⟩
        10 "j2" "a2").2
      = .ok (refreshTokenPayload demoSettings 10 "j2" 1,
             accessTokenOf demoSettings
               (refreshTokenPayload demoSettings 10 "j2" 1) 10 10 "a2")
    ∧ (refreshEndpoint demoSettings
        (refreshEndpoint demoSettings demoAuthDB ⟨demoRefreshPayload, true⟩
          10 "j2" "a2").1
        ⟨demoRefreshPayload, true⟩ 20 "j3" "a3").2
      = .error ⟨401, "Invalid refresh token"⟩
    ∧ (⟨401, "Invalid refresh token"⟩ : HttpError)
      ≠ ⟨401, "Refresh token has been revoked"⟩ :=
  ⟨rfl, rfl, by decide⟩

end Neospend
